import Mathlib

/-!
Verification of the VideoToolbox repository's core logic against its
natural-language specification.

The development shallowly embeds the relevant parts of `compression.py`,
`audio_fix.py` and `gui_upscale.py`:

* Python floats are idealised as rationals (`ℚ`), Python ints as `ℤ`/`ℕ`.
* `int(x)` on a float truncates toward zero; it is modelled by `pyInt`.
* `divmod(a, b)` on ints is floor-based; it is modelled by `pyDivMod`.
* Procedures that either abort early or launch an external process are
  modelled as pure functions returning a decision/trace value; the event
  sequence a supervising loop emits is modelled as a `List Event`.
* The `ffprobe` helper (module `utils`, re-implemented as a fallback in
  `audio_fix.py` lines 59-66) returns the external tool's standard output
  already stripped of surrounding whitespace, so the string parsers below
  act on stripped strings.
-/

/-- Python `int(x)` applied to a float: truncation toward zero
(floor for non-negative `x`, ceiling for negative `x`). -/
def pyInt (q : ℚ) : ℤ := if 0 ≤ q then ⌊q⌋ else ⌈q⌉

/-- Python `divmod(a, b)` on integers: floor division and the matching
remainder. -/
def pyDivMod (a b : ℤ) : ℤ × ℤ := (Int.fdiv a b, Int.fmod a b)

/-- Value of a decimal digit character, `none` for any other character. -/
def digitVal (c : Char) : Option ℕ := if c.isDigit then some (c.toNat - 48) else none

/-- Parse a non-empty all-digit character list as a natural number. -/
def parseNatDigits (cs : List Char) : Option ℕ :=
  match cs with
  | [] => none
  | _ => cs.foldlM (fun acc c => (digitVal c).map fun d => acc * 10 + d) 0

/-- Python `float(s)` on the plain decimal strings the prober emits
(optional sign, digits, optional fractional part).  Empty strings, the
`N/A` sentinel and any other unparseable text yield `none`, modelling the
`ValueError` that `float` raises on them. -/
def pyFloat (s : String) : Option ℚ :=
  let cs := s.toList
  let signAndBody : Bool × List Char :=
    match cs with
    | '-' :: rest => (true, rest)
    | '+' :: rest => (false, rest)
    | _ => (false, cs)
  let val : Option ℚ :=
    match signAndBody.2.splitOn '.' with
    | [ip] => (parseNatDigits ip).map (fun n => (n : ℚ))
    | [ip, fp] =>
      if ip.isEmpty && fp.isEmpty then none
      else
        let ipv : Option ℕ := if ip.isEmpty then some 0 else parseNatDigits ip
        let fpv : Option (ℕ × ℕ) :=
          if fp.isEmpty then some (0, 0)
          else (parseNatDigits fp).map (fun n => (n, fp.length))
        match ipv, fpv with
        | some i, some fk => some ((i : ℚ) + (fk.1 : ℚ) / (10 : ℚ) ^ fk.2)
        | _, _ => none
    | _ => none
  val.map (fun v => if signAndBody.1 then -v else v)

/-- Python `int(s)` on a string: optional sign followed by digits. -/
def pyIntStr (s : String) : Option ℤ :=
  match s.toList with
  | '-' :: rest => (parseNatDigits rest).map (fun n => -(n : ℤ))
  | '+' :: rest => (parseNatDigits rest).map (fun n => (n : ℤ))
  | cs => (parseNatDigits cs).map (fun n => (n : ℤ))

/-- Duration parsing shared by `run_compression` (compression.py lines 40-46)
and `run_audio_fix` (audio_fix.py lines 116-122): `float(duration_str)`;
a parse failure or a non-positive value raises, which both callers catch.
`none` models the caught exception. -/
def parse_duration (s : String) : Option ℚ :=
  match pyFloat s with
  | some d => if d ≤ 0 then none else some d
  | none => none

/-- Audio-bitrate fallback logic of `run_compression` (compression.py
lines 54-62): empty string, `"N/A"` or `"0"` fall back to 128000 bps, as
does any string `int()` cannot parse. -/
def parse_audio_bitrate (s : String) : ℤ :=
  if s = "" || s = "N/A" || s = "0" then 128000
  else
    match pyIntStr s with
    | some n => n
    | none => 128000

/-- The bitrate computation of `run_compression` (compression.py lines
68-72): `target_bits = max_size_gb * 1024^3 * 8`, `audio_bits_total =
audio_bitrate * duration`, `video_bits_total = target_bits -
audio_bits_total`, `video_bitrate = video_bits_total / duration`,
`video_bitrate_kbps = int(video_bitrate / 1000)`. -/
def compression_video_bitrate_kbps (max_size_gb duration : ℚ) (audio_bitrate : ℤ) : ℤ :=
  let target_bits : ℚ := max_size_gb * 1024 * 1024 * 1024 * 8
  let audio_bits_total : ℚ := (audio_bitrate : ℚ) * duration
  let video_bits_total : ℚ := target_bits - audio_bits_total
  let video_bitrate : ℚ := video_bits_total / duration
  pyInt (video_bitrate / 1000)

/-- What `run_compression` decides to do with a file: abort after a failed
duration probe (compression.py lines 44-46), or go on to build the ffmpeg
command and launch it with the computed video bitrate (no other early
return exists between line 46 and the `subprocess.Popen` call at line 188). -/
inductive CompressionDecision where
  | abortProbe : CompressionDecision
  | launch : ℤ → CompressionDecision
deriving DecidableEq

/-- Control-flow model of the probe/parameter phase of `run_compression`
(compression.py lines 35-72): abort on a failed duration probe, otherwise
launch the transcoder with the computed bitrate.  The code performs no
feasibility check on the computed bitrate. -/
def run_compression_decision (duration_str audio_str : String) (max_size_gb : ℚ) :
    CompressionDecision :=
  match parse_duration duration_str with
  | none => CompressionDecision.abortProbe
  | some d =>
      CompressionDecision.launch
        (compression_video_bitrate_kbps max_size_gb d (parse_audio_bitrate audio_str))

/-- What `run_audio_fix` decides to do with a file: abort, or launch the
transcoder carrying an optional duration (absent duration merely disables
progress reporting). -/
inductive AudioFixDecision where
  | abortProbe : AudioFixDecision
  | launch : Option ℚ → AudioFixDecision
deriving DecidableEq

/-- Control-flow model of the probe phase of `run_audio_fix` (audio_fix.py
lines 110-135): a failed duration probe sets `duration = None` ("Disable
progress if unknown") and execution falls through to building and running
the ffmpeg command unconditionally — there is no abort path. -/
def run_audio_fix_decision (duration_str : String) : AudioFixDecision :=
  AudioFixDecision.launch (parse_duration duration_str)

/-- Percentage computed per matched line by `run_compression`'s supervisor
loop (compression.py line 205): `min(100, int(cur_time / duration * 100))`. -/
def percentC (duration cur_time : ℚ) : ℤ := min 100 (pyInt (cur_time / duration * 100))

/-- Percentage computed per matched line by `run_audio_fix`'s supervisor
loop (audio_fix.py line 167): `min(100, (current_time / duration) * 100)`,
kept as a float. -/
def percentA (duration current_time : ℚ) : ℚ := min 100 (current_time / duration * 100)

/-- ETA estimate of `run_compression`'s loop (compression.py lines
207-212): a pair only when `cur_time > 0 and percent < 100`, else
`None, None`. -/
def etaC (duration cur_time elapsed : ℚ) : Option (ℤ × ℤ) :=
  if 0 < cur_time ∧ percentC duration cur_time < 100 then
    let est_total : ℚ := elapsed / (cur_time / duration)
    let remaining : ℚ := est_total - elapsed
    some (pyDivMod (pyInt remaining) 60)
  else
    none

/-- ETA estimate of `run_audio_fix`'s loop (audio_fix.py lines 169-174):
a computed pair when `current_time > 0 and percent < 100`, else the
sentinel pair `(0, 0)` — never an absent value. -/
def etaA (duration current_time elapsed : ℚ) : Option (ℤ × ℤ) :=
  if 0 < current_time ∧ percentA duration current_time < 100 then
    let est_total : ℚ := elapsed / (percentA duration current_time / 100)
    let remaining : ℚ := est_total - elapsed
    some (pyDivMod (pyInt remaining) 60)
  else
    some (0, 0)

/-- A `time=HH:MM:SS.ff` timestamp matched by the regular expression
`time=(\d+):(\d+):(\d+\.\d+)` in both supervisor loops; the groups are
non-negative by construction of the pattern (`s` carries the fractional
seconds as a rational). -/
structure Timestamp where
  h : ℕ
  m : ℕ
  s : ℚ
deriving DecidableEq

/-- Seconds represented by a matched timestamp (compression.py line 203,
audio_fix.py line 164): `int(h) * 3600 + int(m) * 60 + float(s)`. -/
def curTime (t : Timestamp) : ℚ := t.h * 3600 + t.m * 60 + t.s

/-- The percentages `run_compression`'s loop emits for a sequence of
matched timestamp lines, in order. -/
def emittedPercentsC (duration : ℚ) (lines : List Timestamp) : List ℤ :=
  lines.map fun t => percentC duration (curTime t)

/-- The percentages `run_audio_fix`'s loop emits for a sequence of matched
timestamp lines, in order. -/
def emittedPercentsA (duration : ℚ) (lines : List Timestamp) : List ℚ :=
  lines.map fun t => percentA duration (curTime t)

/-- Observable events of a supervisor run: a progress report (percent plus
optional ETA pair) delivered to the GUI callback or the CLI renderer, and
the terminal success/failure report. -/
inductive Event where
  | progress : ℚ → Option (ℤ × ℤ) → Event
  | reportSuccess : Event
  | reportFailure : Event
deriving DecidableEq

/-- Progress events `run_compression`'s loop emits for the matched lines'
`(cur_time, elapsed)` samples (compression.py lines 198-221), one per
matched line. -/
def parsedEventsC (duration : ℚ) (samples : List (ℚ × ℚ)) : List Event :=
  samples.map fun p => Event.progress ((percentC duration p.1 : ℤ) : ℚ) (etaC duration p.1 p.2)

/-- Progress events `run_audio_fix`'s loop emits (audio_fix.py lines
158-186): lines are parsed only when a duration is known, because of the
`if "time=" in line and duration` guard at line 158. -/
def parsedEventsA (durationOpt : Option ℚ) (samples : List (ℚ × ℚ)) : List Event :=
  match durationOpt with
  | none => []
  | some d => samples.map fun p => Event.progress (percentA d p.1) (etaA d p.1 p.2)

/-- Event trace of `run_compression`'s `run_ffmpeg` (compression.py lines
183-239) for a run whose matched lines carry the given
`(cur_time, elapsed)` samples and whose process exits with `exit_code`.
Both modes behave identically here: after `proc.wait()` the code comments
"Always set to 100% at the end" and emits `gui_progress(100, 0, 0)` (GUI
mode, lines 224-228) or `finalize_gui` plus a full CLI bar (lines
229-235), before the success/failure report of lines 236-239. -/
def traceC (duration : ℚ) (samples : List (ℚ × ℚ)) (exit_code : ℤ) : List Event :=
  parsedEventsC duration samples
    ++ [Event.progress 100 (some (0, 0)),
        if exit_code = 0 then Event.reportSuccess else Event.reportFailure]

/-- Event trace of `run_audio_fix`'s `run_ffmpeg_and_report` (audio_fix.py
lines 140-195): after `proc.wait()` the forced 100% bar is printed only in
CLI mode with a known duration (lines 189-191, `if not gui_progress and
duration`); exit code 0 prints the success line, a non-zero exit raises
`RuntimeError` (modelled as the failure report). -/
def traceA (gui_mode : Bool) (durationOpt : Option ℚ) (samples : List (ℚ × ℚ))
    (exit_code : ℤ) : List Event :=
  parsedEventsA durationOpt samples
    ++ (if !gui_mode && durationOpt.isSome then [Event.progress 100 (some (0, 0))] else [])
    ++ [if exit_code = 0 then Event.reportSuccess else Event.reportFailure]

/-- Scale-factor computation of `run_upscale` (gui_upscale.py lines
174-180): `scale = 2` when the source height is unknown or zero, else
`scale = int(h / orig_height) + 1`, raised to 2 when below 2. -/
def run_upscale_scale (h : ℕ) (orig_height : Option ℕ) : ℕ :=
  match orig_height with
  | none => 2
  | some oh =>
    if oh = 0 then 2
    else
      let scale := h / oh + 1
      if scale < 2 then 2 else scale

/-- The scale factor as the spec words it (claim C4): `ceil(targetHeight /
sourceHeight)`, clamped up to the tool minimum 2.  Spec-side definition,
for comparison with the code's `run_upscale_scale`. -/
def specCeilScale (h sourceHeight : ℕ) : ℕ := max 2 ((h + sourceHeight - 1) / sourceHeight)

lemma pyInt_of_nonneg {q : ℚ} (h : 0 ≤ q) : pyInt q = ⌊q⌋ := if_pos h

lemma pyInt_intCast (z : ℤ) : pyInt (z : ℚ) = z := by
  rw [pyInt]
  split
  · exact Int.floor_intCast z
  · exact Int.ceil_intCast z

lemma pyInt_nonneg {q : ℚ} (h : 0 ≤ q) : 0 ≤ pyInt q := by
  rw [pyInt_of_nonneg h]
  exact Int.floor_nonneg.2 h

lemma pyInt_mono_of_nonneg {a b : ℚ} (ha : 0 ≤ a) (h : a ≤ b) : pyInt a ≤ pyInt b := by
  rw [pyInt_of_nonneg ha, pyInt_of_nonneg (ha.trans h)]
  exact Int.floor_le_floor h

lemma pyDivMod_nonneg {a : ℤ} (ha : 0 ≤ a) :
    0 ≤ (pyDivMod a 60).1 ∧ 0 ≤ (pyDivMod a 60).2 :=
  ⟨Int.fdiv_nonneg ha (by norm_num), Int.fmod_nonneg' a (by norm_num)⟩

/-! ## Basic facts about the per-line percentages -/

lemma percentC_le_100 (d c : ℚ) : percentC d c ≤ 100 := min_le_left _ _

lemma percentC_nonneg {d c : ℚ} (hd : 0 < d) (hc : 0 ≤ c) : 0 ≤ percentC d c :=
  le_min (by norm_num) (pyInt_nonneg (mul_nonneg (div_nonneg hc hd.le) (by norm_num)))

lemma percentC_mono {d c₁ c₂ : ℚ} (hd : 0 < d) (hc : 0 ≤ c₁) (h : c₁ ≤ c₂) :
    percentC d c₁ ≤ percentC d c₂ :=
  min_le_min le_rfl
    (pyInt_mono_of_nonneg (mul_nonneg (div_nonneg hc hd.le) (by norm_num)) (by gcongr))

lemma percentC_lt_100_imp {d c : ℚ} (hd : 0 < d) (hc : 0 ≤ c)
    (h : percentC d c < 100) : c < d := by
  have hq : 0 ≤ c / d * 100 := mul_nonneg (div_nonneg hc hd.le) (by norm_num)
  have h1 : pyInt (c / d * 100) < 100 := by
    by_contra hle
    push_neg at hle
    have : percentC d c = 100 := min_eq_left hle
    omega
  rw [pyInt_of_nonneg hq] at h1
  have h2 : c / d * 100 < 100 := by exact_mod_cast Int.floor_lt.1 h1
  have h3 : c / d < 1 := by linarith
  exact (div_lt_one hd).1 h3

lemma percentC_zero {d : ℚ} : percentC d 0 = 0 := by
  rw [percentC, zero_div, zero_mul]
  have : pyInt 0 = 0 := by
    have := pyInt_intCast 0
    simpa using this
  rw [this]
  decide

lemma percentA_le_100 (d c : ℚ) : percentA d c ≤ 100 := min_le_left _ _

lemma percentA_nonneg {d c : ℚ} (hd : 0 < d) (hc : 0 ≤ c) : 0 ≤ percentA d c :=
  le_min (by norm_num) (mul_nonneg (div_nonneg hc hd.le) (by norm_num))

lemma percentA_mono {d c₁ c₂ : ℚ} (hd : 0 < d) (h : c₁ ≤ c₂) :
    percentA d c₁ ≤ percentA d c₂ :=
  min_le_min le_rfl (by gcongr)

lemma percentA_lt_100_imp {d c : ℚ} (hd : 0 < d) (h : percentA d c < 100) : c < d := by
  have h1 : c / d * 100 < 100 := by
    by_contra hle
    push_neg at hle
    have : percentA d c = 100 := min_eq_left hle
    rw [this] at h
    exact absurd h (by norm_num)
  have h3 : c / d < 1 := by linarith
  exact (div_lt_one hd).1 h3

lemma percentA_zero {d : ℚ} : percentA d 0 = 0 := by
  rw [percentA, zero_div, zero_mul]
  decide

lemma curTime_nonneg {t : Timestamp} (hs : 0 ≤ t.s) : 0 ≤ curTime t := by
  rw [curTime]
  have h1 : 0 ≤ (t.h : ℚ) * 3600 := mul_nonneg (Nat.cast_nonneg _) (by norm_num)
  have h2 : 0 ≤ (t.m : ℚ) * 60 := mul_nonneg (Nat.cast_nonneg _) (by norm_num)
  linarith

lemma parse_duration_eq_none {s : String}
    (h : pyFloat s = none ∨ ∃ d, pyFloat s = some d ∧ d ≤ 0) :
    parse_duration s = none := by
  rcases h with h | ⟨d, hd, hle⟩
  · rw [parse_duration, h]
  · rw [parse_duration, hd]
    exact if_pos hle

/-! ## Claim theorems -/

/-- Claim C4, counterexample: for target height 1080 and source height 540
the code computes `int(1080/540) + 1 = 3`, while the claim's
`ceil(1080/540)` clamped to minimum 2 is 2. -/
theorem C4_counterexample :
    run_upscale_scale 1080 (some 540) = 3 ∧ specCeilScale 1080 540 = 2 ∧ (3 : ℕ) ≠ 2 :=
  ⟨rfl, rfl, by decide⟩

/-- Claim C4 (amended): for sourceHeight > 0 the upscale factor computed by
run_upscale is `floor(h / sourceHeight) + 1` clamped up to the tool minimum
2; in particular it agrees with `ceil(h / sourceHeight)` (clamped to 2)
whenever sourceHeight does not divide h, and the spec's two examples
(720 from 480, and 1080 from 1000) both give 2. -/
theorem C4_scale_factor (h oh : ℕ) (hoh : 0 < oh) :
    run_upscale_scale h (some oh) = max 2 (h / oh + 1) ∧
    (¬ oh ∣ h → run_upscale_scale h (some oh) = specCeilScale h oh) ∧
    run_upscale_scale 720 (some 480) = 2 ∧ run_upscale_scale 1080 (some 1000) = 2 := by
  have h1 : run_upscale_scale h (some oh) = max 2 (h / oh + 1) := by
    show (if oh = 0 then 2 else if h / oh + 1 < 2 then 2 else h / oh + 1) = max 2 (h / oh + 1)
    rw [if_neg hoh.ne']
    rcases le_or_lt 2 (h / oh + 1) with hle | hlt
    · rw [if_neg (not_lt.2 hle), max_eq_right hle]
    · rw [if_pos hlt, max_eq_left (by omega)]
  refine ⟨h1, ?_, rfl, rfl⟩
  intro hdvd
  have hq := Nat.div_add_mod h oh
  have hr0 : h % oh ≠ 0 := fun hc => hdvd (Nat.dvd_of_mod_eq_zero hc)
  have hrlt : h % oh < oh := Nat.mod_lt _ hoh
  have hrw : h + oh - 1 = oh * (h / oh + 1) + (h % oh - 1) := by
    have hmul : oh * (h / oh + 1) = oh * (h / oh) + oh := by ring
    omega
  have hceil : (h + oh - 1) / oh = h / oh + 1 := by
    rw [hrw, Nat.mul_add_div hoh, Nat.div_eq_of_lt (show h % oh - 1 < oh by omega)]
  rw [h1, specCeilScale, hceil]

/-- Claim C4, witness: at target 720 and source 480 the code's factor
agrees with the spec's clamped ceiling and equals 2. -/
theorem C4_scale_factor_witness :
    run_upscale_scale 720 (some 480) = specCeilScale 720 480 ∧
    run_upscale_scale 720 (some 480) = 2 :=
  ⟨(C4_scale_factor 720 480 (by decide)).2.1 (by decide),
   (C4_scale_factor 720 480 (by decide)).2.2.1⟩

/-- Claim C1, counterexample: at the claim's own scenario (targetSizeBytes
= 1073741824, i.e. max_size_gb = 1; duration 600 s; audio 128000 bps) the
computation returns 14188, not the claimed 14216; and the floor formula
fails once the result is negative, because Python int() truncates toward
zero: at targetSizeBytes = 0 (max_size_gb = 0), duration 600 and audio
128001 bps the code returns -128 while the claimed floor is -129. -/
theorem C1_counterexample :
    compression_video_bitrate_kbps 1 600 128000 = 14188 ∧ (14188 : ℤ) ≠ 14216 ∧
    compression_video_bitrate_kbps 0 600 128001 = -128 ∧
    ⌊(((0 : ℚ) * 8 - (128001 : ℚ) * 600) / 600 / 1000)⌋ = -129 := by
  refine ⟨?_, by decide, ?_, ?_⟩
  · show pyInt ((1 * 1024 * 1024 * 1024 * 8 - ((128000 : ℤ) : ℚ) * 600) / 600 / 1000) = 14188
    have harg : ((1 : ℚ) * 1024 * 1024 * 1024 * 8 - ((128000 : ℤ) : ℚ) * 600) / 600 / 1000
        = ((8513134592 : ℤ) : ℚ) / ((600000 : ℕ) : ℚ) := by
      push_cast
      norm_num
    rw [harg, pyInt_of_nonneg (by positivity), Rat.floor_intCast_div_natCast]
    decide
  · show pyInt ((0 * 1024 * 1024 * 1024 * 8 - ((128001 : ℤ) : ℚ) * 600) / 600 / 1000) = -128
    have harg : ((0 : ℚ) * 1024 * 1024 * 1024 * 8 - ((128001 : ℤ) : ℚ) * 600) / 600 / 1000
        = -(((76800600 : ℤ) : ℚ) / ((600000 : ℕ) : ℚ)) := by
      push_cast
      norm_num
    have hpos : 0 < ((76800600 : ℤ) : ℚ) / ((600000 : ℕ) : ℚ) := by positivity
    rw [harg, pyInt, if_neg (not_le.2 (neg_lt_zero.2 hpos)), Int.ceil_neg,
      Rat.floor_intCast_div_natCast]
    decide
  · have harg : (((0 : ℚ) * 8 - (128001 : ℚ) * 600) / 600 / 1000)
        = ((-76800600 : ℤ) : ℚ) / ((600000 : ℕ) : ℚ) := by
      push_cast
      norm_num
    rw [harg, Rat.floor_intCast_div_natCast]
    decide

/-- Claim C1 (amended): for every targetSizeBytes, duration > 0 and
audioBitrateBps ≥ 0, run_compression's bitrate computation returns the
truncation toward zero (Python int()) of (targetSizeBytes*8 -
audioBitrateBps*duration) / duration / 1000 kbps, which coincides with the
floor whenever the remaining video bit budget is non-negative; at the
scenario input it returns 14188, not 14216. -/
theorem C1_bitrate_formula (tsb d : ℚ) (ab : ℤ) (hd : 0 < d) (hab : 0 ≤ ab) :
    compression_video_bitrate_kbps (tsb / 2 ^ 30) d ab
        = pyInt ((tsb * 8 - (ab : ℚ) * d) / d / 1000) ∧
    (0 ≤ tsb * 8 - (ab : ℚ) * d →
        compression_video_bitrate_kbps (tsb / 2 ^ 30) d ab
          = ⌊(tsb * 8 - (ab : ℚ) * d) / d / 1000⌋) := by
  have hdne : d ≠ 0 := hd.ne'
  have h1 : compression_video_bitrate_kbps (tsb / 2 ^ 30) d ab
      = pyInt ((tsb * 8 - (ab : ℚ) * d) / d / 1000) := by
    show pyInt ((tsb / 2 ^ 30 * 1024 * 1024 * 1024 * 8 - (ab : ℚ) * d) / d / 1000) = _
    congr 1
    field_simp
    ring
  refine ⟨h1, fun hnum => ?_⟩
  rw [h1, pyInt_of_nonneg (div_nonneg (div_nonneg hnum hd.le) (by norm_num))]

/-- Claim C1, witness: the formula evaluated at the scenario input with a
non-negative budget. -/
theorem C1_bitrate_formula_witness :
    compression_video_bitrate_kbps ((2 ^ 30 : ℚ) / 2 ^ 30) 600 128000
      = ⌊(((2 : ℚ) ^ 30 * 8 - ((128000 : ℤ) : ℚ) * 600) / 600 / 1000)⌋ :=
  (C1_bitrate_formula (2 ^ 30) 600 128000 (by norm_num) (by norm_num)).2 (by norm_num)

/-- Claim C2, counterexample: with a successful duration probe of 600 s,
audio bitrate 128000 bps and max_size_gb = 0 the computed video bitrate is
-128 ≤ 0, yet run_compression still decides to launch the transcoder —
the code contains no infeasible-target check. -/
theorem C2_counterexample :
    run_compression_decision "600" "128000" 0 = CompressionDecision.launch (-128) ∧
    (-128 : ℤ) ≤ 0 ∧
    CompressionDecision.launch (-128) ≠ CompressionDecision.abortProbe := by
  refine ⟨?_, by decide, by decide⟩
  have h0 : run_compression_decision "600" "128000" 0
      = CompressionDecision.launch (compression_video_bitrate_kbps 0 600 128000) := rfl
  have h2 : compression_video_bitrate_kbps 0 600 128000 = -128 := by
    show pyInt ((0 * 1024 * 1024 * 1024 * 8 - ((128000 : ℤ) : ℚ) * 600) / 600 / 1000) = -128
    have harg : ((0 : ℚ) * 1024 * 1024 * 1024 * 8 - ((128000 : ℤ) : ℚ) * 600) / 600 / 1000
        = ((-128 : ℤ) : ℚ) := by
      push_cast
      norm_num
    rw [harg, pyInt_intCast]
  rw [h0, h2]

/-- Claim C2 (amended): run_compression performs no feasibility check on
the computed video bitrate: whenever the duration probe succeeds it
launches the transcoder with that bitrate, even when the bitrate is ≤ 0;
no infeasible-target error is ever surfaced. -/
theorem C2_no_infeasibility_check (ds as : String) (gb d : ℚ)
    (hd : parse_duration ds = some d) :
    run_compression_decision ds as gb
      = CompressionDecision.launch
          (compression_video_bitrate_kbps gb d (parse_audio_bitrate as)) := by
  unfold run_compression_decision
  rw [hd]

/-- Claim C2, witness: the infeasible input of the counterexample still
leads to a launch decision. -/
theorem C2_no_infeasibility_check_witness :
    run_compression_decision "600" "128000" 0
      = CompressionDecision.launch
          (compression_video_bitrate_kbps 0 600 (parse_audio_bitrate "128000")) :=
  C2_no_infeasibility_check "600" "128000" 0 600 rfl

/-- Claim C3, counterexample: when the duration probe returns "N/A",
run_audio_fix does not fail fast — it still launches the transcoder, with
progress disabled — contradicting the claim for the audio-fix job. -/
theorem C3_counterexample :
    run_audio_fix_decision "N/A" = AudioFixDecision.launch none ∧
    AudioFixDecision.launch none ≠ AudioFixDecision.abortProbe :=
  ⟨rfl, by decide⟩

/-- Claim C3 (amended): for every probe output that is empty, "N/A",
unparseable or non-positive, run_compression fails fast and never launches
the transcoder; run_audio_fix instead records an absent duration
(disabling progress) and still launches the transcoder. -/
theorem C3_probe_failure (s as : String) (gb : ℚ)
    (h : pyFloat s = none ∨ ∃ d, pyFloat s = some d ∧ d ≤ 0) :
    run_compression_decision s as gb = CompressionDecision.abortProbe ∧
    run_audio_fix_decision s = AudioFixDecision.launch none := by
  have hnone := parse_duration_eq_none h
  constructor
  · unfold run_compression_decision
    rw [hnone]
  · unfold run_audio_fix_decision
    rw [hnone]

/-- Claim C3, witness: the probe output "N/A" aborts the compression job
and is launched anyway by the audio-fix job. -/
theorem C3_probe_failure_witness :
    run_compression_decision "N/A" "" 1 = CompressionDecision.abortProbe ∧
    run_audio_fix_decision "N/A" = AudioFixDecision.launch none :=
  C3_probe_failure "N/A" "" 1 (Or.inl rfl)

/-- Claim C8, counterexample: with duration 120 s, timestamp lines at
00:01:00 then 00:00:30 make the loop emit [50, 25], a decreasing
sequence — the per-line computation does not enforce monotonicity when
the input timestamps go backwards. -/
theorem C8_counterexample :
    emittedPercentsC 120 [⟨0, 1, 0⟩, ⟨0, 0, 30⟩] = [50, 25] ∧
    ¬ List.Chain' (· ≤ ·) ([(50 : ℤ), 25]) := by
  constructor
  · have h1 : percentC 120 (curTime ⟨0, 1, 0⟩) = 50 := by
      have harg : curTime ⟨0, 1, 0⟩ / 120 * 100 = ((50 : ℤ) : ℚ) := by
        rw [curTime]
        push_cast
        norm_num
      rw [percentC, harg, pyInt_intCast]
      decide
    have h2 : percentC 120 (curTime ⟨0, 0, 30⟩) = 25 := by
      have harg : curTime ⟨0, 0, 30⟩ / 120 * 100 = ((25 : ℤ) : ℚ) := by
        rw [curTime]
        push_cast
        norm_num
      rw [percentC, harg, pyInt_intCast]
      decide
    simp [emittedPercentsC, h1, h2]
  · simp [List.chain'_cons]

/-- Claim C8 (amended): for a fixed duration > 0 and any sequence of valid
timestamp lines, every emitted percentage lies in [0, 100] (both loops);
and whenever the timestamps themselves are non-decreasing, the emitted
percentage sequence is non-decreasing (both loops). -/
theorem C8_progress (d : ℚ) (lines : List Timestamp) (hd : 0 < d)
    (hs : ∀ t ∈ lines, 0 ≤ t.s) :
    (List.Chain' (· ≤ ·) (lines.map curTime) →
       List.Chain' (· ≤ ·) (emittedPercentsC d lines) ∧
       List.Chain' (· ≤ ·) (emittedPercentsA d lines)) ∧
    (∀ p ∈ emittedPercentsC d lines, 0 ≤ p ∧ p ≤ 100) ∧
    (∀ p ∈ emittedPercentsA d lines, 0 ≤ p ∧ p ≤ 100) := by
  refine ⟨fun hchain => ?_, ?_, ?_⟩
  · have hpair : List.Pairwise (fun a b : Timestamp => curTime a ≤ curTime b) lines :=
      List.pairwise_map.1 (List.chain'_iff_pairwise.1 hchain)
    constructor
    · rw [emittedPercentsC, List.chain'_iff_pairwise, List.pairwise_map]
      exact hpair.imp_of_mem fun ha hb hab =>
        percentC_mono hd (curTime_nonneg (hs _ ha)) hab
    · rw [emittedPercentsA, List.chain'_iff_pairwise, List.pairwise_map]
      exact hpair.imp_of_mem fun ha hb hab => percentA_mono hd hab
  · intro p hp
    rw [emittedPercentsC, List.mem_map] at hp
    obtain ⟨t, ht, rfl⟩ := hp
    exact ⟨percentC_nonneg hd (curTime_nonneg (hs t ht)), percentC_le_100 _ _⟩
  · intro p hp
    rw [emittedPercentsA, List.mem_map] at hp
    obtain ⟨t, ht, rfl⟩ := hp
    exact ⟨percentA_nonneg hd (curTime_nonneg (hs t ht)), percentA_le_100 _ _⟩

/-- Claim C8, witness: an increasing pair of timestamps yields a
non-decreasing, in-range emitted sequence. -/
theorem C8_progress_witness :
    List.Chain' (· ≤ ·) (emittedPercentsC 120 [⟨0, 0, 30⟩, ⟨0, 1, 0⟩]) ∧
    ∀ p ∈ emittedPercentsC 120 [⟨0, 0, 30⟩, ⟨0, 1, 0⟩], 0 ≤ p ∧ p ≤ 100 := by
  have h := C8_progress 120 [⟨0, 0, 30⟩, ⟨0, 1, 0⟩] (by norm_num) (by decide)
  refine ⟨(h.1 ?_).1, h.2.1⟩
  simp only [List.map, curTime, List.chain'_cons, List.chain'_singleton, and_true]
  push_cast
  norm_num

/-- Claim C9, counterexample: run_compression's loop returns an ETA pair,
not an absent value, at percent = 0 as long as cur_time > 0 (duration
1000 s, cur_time 1 s, elapsed 5 s gives percent 0 and ETA (83, 15)); and
run_audio_fix's loop returns the pair (0, 0), not an absent value, at
percent = 100. -/
theorem C9_counterexample :
    percentC 1000 1 = 0 ∧ etaC 1000 1 5 = some (83, 15) ∧
    percentA 120 120 = 100 ∧ etaA 120 120 10 = some (0, 0) := by
  have hpc : percentC 1000 1 = 0 := by
    have harg : (1 : ℚ) / 1000 * 100 = ((1 : ℤ) : ℚ) / ((10 : ℕ) : ℚ) := by
      push_cast
      norm_num
    rw [percentC, harg, pyInt_of_nonneg (by positivity), Rat.floor_intCast_div_natCast]
    decide
  have hpa : percentA 120 120 = 100 := by
    rw [percentA]
    norm_num [min_def]
  refine ⟨hpc, ?_, hpa, ?_⟩
  · rw [etaC, if_pos ⟨by norm_num, by rw [hpc]; norm_num⟩]
    show some (pyDivMod (pyInt ((5 : ℚ) / ((1 : ℚ) / 1000) - 5)) 60) = some (83, 15)
    have harg : (5 : ℚ) / ((1 : ℚ) / 1000) - 5 = ((4995 : ℤ) : ℚ) := by norm_num
    rw [harg, pyInt_intCast]
    decide
  · have hcond : ¬ (0 < (120 : ℚ) ∧ percentA 120 120 < 100) := by
      rintro ⟨-, hlt⟩
      rw [hpa] at hlt
      exact absurd hlt (by norm_num)
    rw [etaA, if_neg hcond]

/-- Claim C9 (amended): for duration > 0, cur_time ≥ 0 and elapsed ≥ 0,
run_compression's loop delivers an absent ETA exactly when cur_time = 0 or
percent = 100 (so percent = 0 with cur_time > 0 still yields a pair), and
a non-negative (minutes, seconds) pair whenever 0 < percent < 100;
run_audio_fix's loop never delivers an absent ETA — it delivers (0, 0) at
the boundaries — and a non-negative pair whenever 0 < percent < 100. -/
theorem C9_eta (duration cur elapsed : ℚ) (hd : 0 < duration) (hc : 0 ≤ cur)
    (he : 0 ≤ elapsed) :
    (etaC duration cur elapsed = none ↔ cur = 0 ∨ percentC duration cur = 100) ∧
    (0 < percentC duration cur → percentC duration cur < 100 →
       ∃ m s, etaC duration cur elapsed = some (m, s) ∧ 0 ≤ m ∧ 0 ≤ s) ∧
    (etaA duration cur elapsed).isSome = true ∧
    (0 < percentA duration cur → percentA duration cur < 100 →
       ∃ m s, etaA duration cur elapsed = some (m, s) ∧ 0 ≤ m ∧ 0 ≤ s) := by
  refine ⟨?_, ?_, ?_, ?_⟩
  · by_cases hcond : 0 < cur ∧ percentC duration cur < 100
    · rw [etaC, if_pos hcond]
      constructor
      · intro h
        exact absurd h (by simp)
      · rintro (h | h)
        · exact absurd h hcond.1.ne'
        · exact absurd h hcond.2.ne
    · rw [etaC, if_neg hcond]
      push_neg at hcond
      constructor
      · intro _
        rcases eq_or_lt_of_le hc with h0 | hpos
        · exact Or.inl h0.symm
        · exact Or.inr (le_antisymm (percentC_le_100 _ _) (hcond hpos))
      · intro _
        rfl
  · intro hp0 hp100
    have hcur : 0 < cur := by
      rcases eq_or_lt_of_le hc with h0 | hpos
      · rw [← h0, percentC_zero] at hp0
        exact absurd hp0 (lt_irrefl 0)
      · exact hpos
    have hlt : cur < duration := percentC_lt_100_imp hd hc hp100
    have hratio_pos : 0 < cur / duration := div_pos hcur hd
    have hratio_le : cur / duration ≤ 1 := by
      rw [div_le_one hd]
      exact hlt.le
    have hest : elapsed ≤ elapsed / (cur / duration) := by
      rw [le_div_iff₀ hratio_pos]
      exact mul_le_of_le_one_right he hratio_le
    have hrem : 0 ≤ elapsed / (cur / duration) - elapsed := sub_nonneg.2 hest
    obtain ⟨hm, hs'⟩ := pyDivMod_nonneg (pyInt_nonneg hrem)
    refine ⟨(pyDivMod (pyInt (elapsed / (cur / duration) - elapsed)) 60).1,
            (pyDivMod (pyInt (elapsed / (cur / duration) - elapsed)) 60).2, ?_, hm, hs'⟩
    rw [etaC, if_pos ⟨hcur, hp100⟩]
  · rw [etaA]
    split <;> simp
  · intro hp0 hp100
    have hcur : 0 < cur := by
      rcases eq_or_lt_of_le hc with h0 | hpos
      · rw [← h0, percentA_zero] at hp0
        exact absurd hp0 (lt_irrefl 0)
      · exact hpos
    have hfrac_pos : 0 < percentA duration cur / 100 := div_pos hp0 (by norm_num)
    have hfrac_le : percentA duration cur / 100 ≤ 1 := by
      rw [div_le_one (by norm_num : (0 : ℚ) < 100)]
      exact hp100.le
    have hest : elapsed ≤ elapsed / (percentA duration cur / 100) := by
      rw [le_div_iff₀ hfrac_pos]
      exact mul_le_of_le_one_right he hfrac_le
    have hrem : 0 ≤ elapsed / (percentA duration cur / 100) - elapsed := sub_nonneg.2 hest
    obtain ⟨hm, hs'⟩ := pyDivMod_nonneg (pyInt_nonneg hrem)
    refine ⟨(pyDivMod (pyInt (elapsed / (percentA duration cur / 100) - elapsed)) 60).1,
            (pyDivMod (pyInt (elapsed / (percentA duration cur / 100) - elapsed)) 60).2,
            ?_, hm, hs'⟩
    rw [etaA, if_pos ⟨hcur, hp100⟩]

/-- Claim C9, witness: at duration 600 s, cur_time 300 s, elapsed 10 s
(percent 50 in both loops), both loops deliver a non-negative pair. -/
theorem C9_eta_witness :
    (∃ m s, etaC 600 300 10 = some (m, s) ∧ 0 ≤ m ∧ 0 ≤ s) ∧
    (∃ m s, etaA 600 300 10 = some (m, s) ∧ 0 ≤ m ∧ 0 ≤ s) := by
  have hpc : percentC 600 300 = 50 := by
    have harg : (300 : ℚ) / 600 * 100 = ((50 : ℤ) : ℚ) := by
      push_cast
      norm_num
    rw [percentC, harg, pyInt_intCast]
    decide
  have hpa : percentA 600 300 = 50 := by
    rw [percentA]
    norm_num [min_def]
  have h := C9_eta 600 300 10 (by norm_num) (by norm_num) (by norm_num)
  exact ⟨h.2.1 (by rw [hpc]; norm_num) (by rw [hpc]; norm_num),
         h.2.2.2 (by rw [hpa]; norm_num) (by rw [hpa]; norm_num)⟩

/-- Claim C7, counterexample: run_audio_fix in GUI mode, exiting 0 after a
single parsed line at 50%, reports success without any final 100% event —
the forced 100% bar of lines 189-191 is printed only when no gui_progress
callback is installed. -/
theorem C7_counterexample :
    traceA true (some 600) [(300, 10)] 0
      = [Event.progress 50 (some (0, 10)), Event.reportSuccess] ∧
    Event.progress 100 (some (0, 0)) ∉ traceA true (some 600) [(300, 10)] 0 := by
  have hpa : percentA 600 300 = 50 := by
    rw [percentA]
    norm_num [min_def]
  have heta : etaA 600 300 10 = some (0, 10) := by
    have hcond : 0 < (300 : ℚ) ∧ percentA 600 300 < 100 :=
      ⟨by norm_num, by rw [hpa]; norm_num⟩
    rw [etaA, if_pos hcond]
    show some (pyDivMod (pyInt ((10 : ℚ) / (percentA 600 300 / 100) - 10)) 60) = some (0, 10)
    have harg : (10 : ℚ) / (percentA 600 300 / 100) - 10 = ((10 : ℤ) : ℚ) := by
      rw [hpa]
      push_cast
      norm_num
    rw [harg, pyInt_intCast]
    decide
  have h1 : traceA true (some 600) [(300, 10)] 0
      = [Event.progress 50 (some (0, 10)), Event.reportSuccess] := by
    rw [traceA]
    simp [parsedEventsA, hpa, heta]
  refine ⟨h1, ?_⟩
  rw [h1]
  decide

/-- Claim C7 (amended): on exit code 0, run_compression emits the forced
100% event immediately before reporting success in both modes, and
run_audio_fix does so only in CLI mode with a known duration; in GUI mode
(or with an unknown duration) the success report follows the parsed events
with no forced 100% event. -/
theorem C7_success_forced_100 (dur d : ℚ) (dOpt : Option ℚ) (samples : List (ℚ × ℚ)) :
    traceC dur samples 0
      = parsedEventsC dur samples ++ [Event.progress 100 (some (0, 0)), Event.reportSuccess] ∧
    traceA false (some d) samples 0
      = parsedEventsA (some d) samples
          ++ [Event.progress 100 (some (0, 0)), Event.reportSuccess] ∧
    traceA true dOpt samples 0 = parsedEventsA dOpt samples ++ [Event.reportSuccess] ∧
    traceA false none samples 0 = [Event.reportSuccess] := by
  refine ⟨?_, ?_, ?_, ?_⟩
  · rw [traceC]
    simp
  · rw [traceA]
    simp
  · rw [traceA]
    simp
  · rw [traceA]
    simp [parsedEventsA]
